import Mathlib

/-!
Shallow embedding of the swarm-shape particle animation (src/index.ts).

JavaScript numbers are modelled as `Option ℝ`: `some x` is the finite value
`x`, `none` models a non-finite result (NaN). On the expressions this program
evaluates, the only sources of non-finite values are division by zero and the
square root of a negative number; both are mapped to `none`, and `none` is
absorbing for every operation, matching IEEE NaN propagation (in the one place
where `c / 0` with a nonzero numerator would give an infinity rather than NaN,
the value is immediately multiplied by a NaN factor, so collapsing both cases
to `none` is faithful to the final result). Finite arithmetic is modelled as
exact real arithmetic (rounding error is out of scope). Calls to the random
source are modelled by explicitly passed draw values, universally quantified
in every statement.
-/

namespace Swarm

/-- A JavaScript number: `some x` finite, `none` non-finite (NaN). -/
abbrev JSNum := Option ℝ

/-- JavaScript `+` on numbers (NaN absorbing). -/
def jadd : JSNum → JSNum → JSNum
  | some a, some b => some (a + b)
  | _, _ => none

/-- JavaScript `-` on numbers (NaN absorbing). -/
def jsub : JSNum → JSNum → JSNum
  | some a, some b => some (a - b)
  | _, _ => none

/-- JavaScript `*` on numbers (NaN absorbing; `NaN * 0 = NaN`). -/
def jmul : JSNum → JSNum → JSNum
  | some a, some b => some (a * b)
  | _, _ => none

open Classical in
/-- JavaScript `/` on numbers: division by zero is non-finite. -/
noncomputable def jdiv : JSNum → JSNum → JSNum
  | some a, some b => if b = 0 then none else some (a / b)
  | _, _ => none

/-- JavaScript `** 2`. -/
def jsq : JSNum → JSNum
  | some a => some (a ^ 2)
  | none => none

open Classical in
/-- `Math.sqrt`: NaN on negative input. -/
noncomputable def jsqrt : JSNum → JSNum
  | some a => if a < 0 then none else some (Real.sqrt a)
  | none => none

/-- The `Position` interface of the source (`{x, y}`). -/
structure Position where
  x : JSNum
  y : JSNum

/-- The `Particle` interface of the source. -/
structure Particle where
  size : ℝ
  position : Position
  destination : Position

/-- The resolved `physics` options object (`{noise, drift, repulsion}`). -/
structure Physics where
  noise : ℝ
  drift : ℝ
  repulsion : ℝ

/-- The `cursor` record (`MakeOptionalUndefined<Position>`): each coordinate
is a number or `undefined` (`none` = `undefined`; pointer events only ever
store finite numbers, so a present coordinate is a real). -/
structure Cursor where
  x : Option ℝ
  y : Option ℝ

/-- The Euclidean-distance expression the source computes, e.g.
`Math.sqrt((a.x - b.x) ** 2 + (a.y - b.y) ** 2)`. -/
noncomputable def jdist (a b : Position) : JSNum :=
  jsqrt (jadd (jsq (jsub a.x b.x)) (jsq (jsub a.y b.y)))

open Classical in
/-- `updateParticle` (src/index.ts lines 96-121): noise, then drift toward
the destination, then cursor repulsion guarded by the JavaScript truthiness
test `cursor.x && cursor.y` (a present coordinate equal to `0` is falsy).
`r1`, `r2` are the two `Math.random()` draws of the noise step. -/
noncomputable def updateParticle (particle : Particle) (physics : Physics)
    (characteristicSize : ℝ) (cursor : Cursor) (r1 r2 : ℝ) : Particle :=
  let px1 := jadd particle.position.x (some ((r1 * 2 - 1) * physics.noise))
  let py1 := jadd particle.position.y (some ((r2 * 2 - 1) * physics.noise))
  let ddest := jsqrt (jadd (jsq (jsub px1 particle.destination.x))
    (jsq (jsub py1 particle.destination.y)))
  let px2 := jadd px1 (jmul (jdiv (jsub particle.destination.x px1) ddest) (some physics.drift))
  let py2 := jadd py1 (jmul (jdiv (jsub particle.destination.y py1) ddest) (some physics.drift))
  match cursor.x, cursor.y with
  | some cx, some cy =>
    if cx ≠ 0 ∧ cy ≠ 0 then
      let dcursor := jsqrt (jadd (jsq (jsub px2 (some cx))) (jsq (jsub py2 (some cy))))
      let px3 := jadd px2 (jmul (jmul (jdiv (jsub px2 (some cx)) dcursor)
        (jsq (jdiv (some characteristicSize) dcursor))) (some physics.repulsion))
      let py3 := jadd py2 (jmul (jmul (jdiv (jsub py2 (some cy)) dcursor)
        (jsq (jdiv (some characteristicSize) dcursor))) (some physics.repulsion))
      { particle with position := ⟨px3, py3⟩ }
    else { particle with position := ⟨px2, py2⟩ }
  | _, _ => { particle with position := ⟨px2, py2⟩ }

/-- The drift+noise-only step the spec compares against: the first two force
blocks of `updateParticle` (lines 102-111), with the repulsion block removed. -/
noncomputable def noiseDriftStep (particle : Particle) (noise drift : ℝ) (r1 r2 : ℝ) : Particle :=
  let px1 := jadd particle.position.x (some ((r1 * 2 - 1) * noise))
  let py1 := jadd particle.position.y (some ((r2 * 2 - 1) * noise))
  let ddest := jsqrt (jadd (jsq (jsub px1 particle.destination.x))
    (jsq (jsub py1 particle.destination.y)))
  let px2 := jadd px1 (jmul (jdiv (jsub particle.destination.x px1) ddest) (some drift))
  let py2 := jadd py1 (jmul (jdiv (jsub particle.destination.y py1) ddest) (some drift))
  { particle with position := ⟨px2, py2⟩ }

/-- The random draws one loop iteration of `init` may consume: a stream of
draw pairs for the rejection-sampling attempts, the side-selector draw of
mode `sides`, and the coordinate draws of modes `sides` and `evenly`. The
source pulls all of these from one global `Math.random()` stream (lazily, so
the offsets differ per branch); since every statement quantifies over all
draw values, splitting them into named fields is an equivalent model. -/
structure DrawSeq where
  sample : ℕ → ℝ × ℝ
  side : ℝ
  coordX : ℝ
  coordY : ℝ

/-- The rejection-sampling `do`/`while` loop of `getRandomPointInsideShape`
(lines 75-81), with explicit fuel: `none` models an execution that has not
accepted a point within `fuel` attempts (the source would keep looping).
`inShape` is the `ctx.isPointInPath(shape, x, y, 'evenodd')` oracle. -/
noncomputable def sampleLoop (inShape : ℝ → ℝ → Bool) (w h : ℝ)
    (g : ℕ → ℝ × ℝ) : ℕ → Option (ℝ × ℝ)
  | 0 => none
  | fuel + 1 =>
    let x := (g 0).1 * w
    let y := (g 0).2 * h
    if inShape x y then some (x, y) else sampleLoop inShape w h (fun k => g (k + 1)) fuel

open Classical in
/-- The `sides` placement branch of `init` (lines 170-175): pick a side from
the quartile of `r`, pin the perpendicular coordinate to the boundary, draw
the other coordinate uniformly along the edge. -/
noncomputable def sidesPosition (w h r rx ry : ℝ) : ℝ × ℝ :=
  let side := if r < 0.25 then "top" else if r < 0.5 then "right"
    else if r < 0.75 then "bottom" else "left"
  let x := if side = "top" ∨ side = "bottom" then rx * w else if side = "left" then (0 : ℝ) else w
  let y := if side = "left" ∨ side = "right" then ry * h else if side = "top" then (0 : ℝ) else h
  (x, y)

/-- Outcome of one `init` loop iteration: a particle, one of the two thrown
errors, or a rejection-sampling loop that never accepts (out of fuel). -/
inductive PlaceResult where
  | ok (p : Particle)
  | canvasNotFound
  | invalidMode
  | diverged

/-- One iteration of the `init` loop (lines 166-194): sample the destination
first (throwing `Canvas not found` inside `getRandomPointInsideShape` when
the canvas or its 2d context is missing), then dispatch on the mode string,
throwing `Invalid particle mode` on an unrecognized mode. -/
noncomputable def placeOne (canvasPresent ctxPresent : Bool) (w h : ℝ)
    (inShape : ℝ → ℝ → Bool) (fuel : ℕ) (mode : String) (size : ℝ)
    (d : DrawSeq) : PlaceResult :=
  if canvasPresent && ctxPresent then
    match sampleLoop inShape w h d.sample fuel with
    | none => .diverged
    | some dest =>
      if mode = "sides" then
        let pos := sidesPosition w h d.side d.coordX d.coordY
        .ok ⟨size, ⟨some pos.1, some pos.2⟩, ⟨some dest.1, some dest.2⟩⟩
      else if mode = "evenly" then
        .ok ⟨size, ⟨some (d.coordX * w), some (d.coordY * h)⟩, ⟨some dest.1, some dest.2⟩⟩
      else if mode = "inside" then
        .ok ⟨size, ⟨some dest.1, some dest.2⟩, ⟨some dest.1, some dest.2⟩⟩
      else .invalidMode
  else .canvasNotFound

/-- Outcome of `init`: the final contents of the `particles` array on normal
return, or the contents at the moment an error was thrown (the array is
mutated in place, so a throw leaves the already-pushed particles behind),
or divergence of the sampling loop. -/
inductive InitResult where
  | ok (ps : List Particle)
  | canvasNotFound (ps : List Particle)
  | invalidMode (ps : List Particle)
  | diverged (ps : List Particle)

/-- The `for` loop of `init`, with `acc` the particles pushed so far. -/
noncomputable def initLoop (canvasPresent ctxPresent : Bool) (w h : ℝ)
    (inShape : ℝ → ℝ → Bool) (fuel : ℕ) (mode : String) (size : ℝ) :
    (ℕ → DrawSeq) → ℕ → List Particle → InitResult
  | _, 0, acc => .ok acc
  | ds, n + 1, acc =>
    match placeOne canvasPresent ctxPresent w h inShape fuel mode size (ds 0) with
    | .ok p => initLoop canvasPresent ctxPresent w h inShape fuel mode size
        (fun k => ds (k + 1)) n (acc ++ [p])
    | .canvasNotFound => .canvasNotFound acc
    | .invalidMode => .invalidMode acc
    | .diverged => .diverged acc

/-- `init` (lines 159-195): the guard on `canvasEl` (line 160), then `amount`
loop iterations starting from an empty particle array. -/
noncomputable def init (canvasPresent ctxPresent : Bool) (w h : ℝ)
    (inShape : ℝ → ℝ → Bool) (fuel : ℕ) (ds : ℕ → DrawSeq) (mode : String)
    (size : ℝ) (amount : ℕ) : InitResult :=
  if canvasPresent then
    initLoop canvasPresent ctxPresent w h inShape fuel mode size ds amount []
  else .canvasNotFound []

/-- The `particles.forEach(updateParticle ...)` pass of `animate` (lines
203-206): each particle is stepped with its own two fresh draws, consumed in
order from the stream. -/
noncomputable def updateAll (physics : Physics) (characteristicSize : ℝ)
    (cursor : Cursor) (draws : ℕ → ℝ × ℝ) : List Particle → List Particle
  | [] => []
  | p :: rest =>
    updateParticle p physics characteristicSize cursor (draws 0).1 (draws 0).2 ::
      updateAll physics characteristicSize cursor (fun k => draws (k + 1)) rest

/-- One frame of `animate` (lines 197-208): the guard on the canvas and its
context, then one `updateParticle` pass over the particle array. The
characteristic size is `(height + width) / 2` (line 150). Drawing is pure
output and is not modelled. -/
noncomputable def animateFrame (canvasPresent ctxPresent : Bool) (w h : ℝ)
    (physics : Physics) (cursor : Cursor) (draws : ℕ → ℝ × ℝ)
    (ps : List Particle) : Except String (List Particle) :=
  if canvasPresent && ctxPresent then
    .ok (updateAll physics ((h + w) / 2) cursor draws ps)
  else .error "Canvas not found"

/-! ## Helper lemmas -/

@[simp] lemma jadd_some (a b : ℝ) : jadd (some a) (some b) = some (a + b) := rfl
@[simp] lemma jadd_none_left (a : JSNum) : jadd none a = none := by cases a <;> rfl
@[simp] lemma jadd_none_right (a : JSNum) : jadd a none = none := by cases a <;> rfl
@[simp] lemma jsub_some (a b : ℝ) : jsub (some a) (some b) = some (a - b) := rfl
@[simp] lemma jsub_none_left (a : JSNum) : jsub none a = none := by cases a <;> rfl
@[simp] lemma jsub_none_right (a : JSNum) : jsub a none = none := by cases a <;> rfl
@[simp] lemma jmul_some (a b : ℝ) : jmul (some a) (some b) = some (a * b) := rfl
@[simp] lemma jmul_none_left (a : JSNum) : jmul none a = none := by cases a <;> rfl
@[simp] lemma jmul_none_right (a : JSNum) : jmul a none = none := by cases a <;> rfl
@[simp] lemma jdiv_some (a b : ℝ) :
    jdiv (some a) (some b) = if b = 0 then none else some (a / b) := rfl
@[simp] lemma jdiv_none_left (a : JSNum) : jdiv none a = none := by cases a <;> rfl
@[simp] lemma jdiv_none_right (a : JSNum) : jdiv a none = none := by cases a <;> rfl
@[simp] lemma jsq_some (a : ℝ) : jsq (some a) = some (a ^ 2) := rfl
@[simp] lemma jsq_none : jsq none = none := rfl
@[simp] lemma jsqrt_some (a : ℝ) :
    jsqrt (some a) = if a < 0 then none else some (Real.sqrt a) := rfl
@[simp] lemma jsqrt_none : jsqrt none = none := rfl

/-- With the cursor absent (both coordinates `undefined`), `updateParticle`
is exactly the noise+drift prefix: the repulsion block is skipped. -/
lemma updateParticle_cursor_absent (p : Particle) (ph : Physics) (cs r1 r2 : ℝ) :
    updateParticle p ph cs ⟨none, none⟩ r1 r2 = noiseDriftStep p ph.noise ph.drift r1 r2 := rfl

/-- A cursor with a present-but-zero coordinate fails the truthiness guard:
the step is identical to the cursor-absent step. -/
lemma updateParticle_zero_coord (p : Particle) (ph : Physics) (cs r1 r2 : ℝ)
    (cx cy : Option ℝ) (h : cx = some 0 ∨ cy = some 0) :
    updateParticle p ph cs ⟨cx, cy⟩ r1 r2 = updateParticle p ph cs ⟨none, none⟩ r1 r2 := by
  rcases h with h | h
  · subst h
    rcases cy with _ | cy <;> simp [updateParticle]
  · subst h
    rcases cx with _ | cx <;> simp [updateParticle]

/-- Explicit form of the noise+drift step on finite coordinates when the
post-noise position differs from the destination. `a`, `b` are the post-noise
coordinates and `d` the (positive) distance to the destination. -/
lemma noiseDriftStep_spec (sz px py dx dy noise drift r1 r2 a b d : ℝ)
    (ha : a = px + (r1 * 2 - 1) * noise) (hb : b = py + (r2 * 2 - 1) * noise)
    (hd : d = Real.sqrt ((a - dx) ^ 2 + (b - dy) ^ 2))
    (hne : ¬(a = dx ∧ b = dy)) :
    noiseDriftStep ⟨sz, ⟨some px, some py⟩, ⟨some dx, some dy⟩⟩ noise drift r1 r2
      = ⟨sz, ⟨some (a + (dx - a) / d * drift), some (b + (dy - b) / d * drift)⟩,
          ⟨some dx, some dy⟩⟩ := by
  have hS : 0 < (a - dx) ^ 2 + (b - dy) ^ 2 := by
    rcases not_and_or.mp hne with h | h
    · exact add_pos_of_pos_of_nonneg
        (pow_two_pos_of_ne_zero (sub_ne_zero.mpr h)) (sq_nonneg _)
    · exact add_pos_of_nonneg_of_pos (sq_nonneg _)
        (pow_two_pos_of_ne_zero (sub_ne_zero.mpr h))
  have hdpos : 0 < d := hd ▸ Real.sqrt_pos.mpr hS
  subst ha hb
  simp only [noiseDriftStep, jadd_some, jsub_some, jsq_some, jsqrt_some]
  rw [if_neg (not_lt.mpr hS.le), ← hd]
  simp only [jdiv_some]
  simp only [if_neg hdpos.ne', jmul_some, jadd_some]

/-- Degenerate form of the noise+drift step: when the post-noise position
coincides with the destination, the distance is zero and both coordinates
become non-finite (`0 / 0` is NaN, and NaN times anything is NaN). -/
lemma noiseDriftStep_degenerate (sz px py dx dy noise drift r1 r2 : ℝ)
    (ha : px + (r1 * 2 - 1) * noise = dx) (hb : py + (r2 * 2 - 1) * noise = dy) :
    noiseDriftStep ⟨sz, ⟨some px, some py⟩, ⟨some dx, some dy⟩⟩ noise drift r1 r2
      = ⟨sz, ⟨none, none⟩, ⟨some dx, some dy⟩⟩ := by
  simp only [noiseDriftStep, jadd_some, jsub_some, jsq_some, ha, hb]
  norm_num

/-- Whatever the rejection-sampling loop returns was accepted by the oracle,
and is of the form `(r * w, r' * h)` for some draw pair of the stream. -/
lemma sampleLoop_ok (inShape : ℝ → ℝ → Bool) (w h : ℝ) :
    ∀ (fuel : ℕ) (g : ℕ → ℝ × ℝ) (pt : ℝ × ℝ),
      sampleLoop inShape w h g fuel = some pt →
      inShape pt.1 pt.2 = true ∧ ∃ k, pt = ((g k).1 * w, (g k).2 * h) := by
  intro fuel
  induction fuel with
  | zero => intro g pt hpt; simp [sampleLoop] at hpt
  | succ n ih =>
    intro g pt hpt
    simp only [sampleLoop] at hpt
    by_cases hacc : inShape ((g 0).1 * w) ((g 0).2 * h)
    · rw [if_pos hacc] at hpt
      obtain rfl : ((g 0).1 * w, (g 0).2 * h) = pt := (Option.some.injEq _ _).mp hpt
      exact ⟨hacc, 0, rfl⟩
    · rw [if_neg hacc] at hpt
      obtain ⟨h1, k, hk⟩ := ih (fun k => g (k + 1)) pt hpt
      exact ⟨h1, k + 1, hk⟩

/-- Any per-particle property guaranteed by `placeOne` holds of every
particle in a successful `initLoop` run. -/
lemma initLoop_ok_forall (canvasP ctxP : Bool) (w h : ℝ) (inShape : ℝ → ℝ → Bool)
    (fuel : ℕ) (mode : String) (size : ℝ) (P : Particle → Prop) :
    ∀ (n : ℕ) (ds : ℕ → DrawSeq) (acc ps : List Particle),
      (∀ k p, placeOne canvasP ctxP w h inShape fuel mode size (ds k) = .ok p → P p) →
      (∀ p ∈ acc, P p) →
      initLoop canvasP ctxP w h inShape fuel mode size ds n acc = .ok ps →
      ∀ p ∈ ps, P p := by
  intro n
  induction n with
  | zero =>
    intro ds acc ps _ hacc hok
    simp only [initLoop, InitResult.ok.injEq] at hok
    exact hok ▸ hacc
  | succ m ih =>
    intro ds acc ps hplace hacc hok
    simp only [initLoop] at hok
    split at hok
    · rename_i p hp
      exact ih (fun k => ds (k + 1)) (acc ++ [p]) ps (fun k q hq => hplace (k + 1) q hq)
        (by intro q hq
            rcases List.mem_append.mp hq with hq | hq
            · exact hacc q hq
            · exact List.mem_singleton.mp hq ▸ hplace 0 p hp) hok
    · exact absurd hok (by simp)
    · exact absurd hok (by simp)
    · exact absurd hok (by simp)

/-- A successful `initLoop` run appends exactly one particle per iteration. -/
lemma initLoop_ok_length (canvasP ctxP : Bool) (w h : ℝ) (inShape : ℝ → ℝ → Bool)
    (fuel : ℕ) (mode : String) (size : ℝ) :
    ∀ (n : ℕ) (ds : ℕ → DrawSeq) (acc ps : List Particle),
      initLoop canvasP ctxP w h inShape fuel mode size ds n acc = .ok ps →
      ps.length = acc.length + n := by
  intro n
  induction n with
  | zero =>
    intro ds acc ps hok
    simp only [initLoop, InitResult.ok.injEq] at hok
    simp [← hok]
  | succ m ih =>
    intro ds acc ps hok
    simp only [initLoop] at hok
    split at hok
    · rename_i p hp
      have := ih (fun k => ds (k + 1)) (acc ++ [p]) ps hok
      simp only [List.length_append, List.length_singleton] at this
      omega
    · exact absurd hok (by simp)
    · exact absurd hok (by simp)
    · exact absurd hok (by simp)

/-- Each output slot of the `forEach` pass is the step of the corresponding
input slot alone, under that slot's own draws. -/
lemma updateAll_getElem? (physics : Physics) (cs : ℝ) (cursor : Cursor) :
    ∀ (ps : List Particle) (draws : ℕ → ℝ × ℝ) (i : ℕ),
      (updateAll physics cs cursor draws ps)[i]? =
        (ps[i]?).map (fun q => updateParticle q physics cs cursor (draws i).1 (draws i).2) := by
  intro ps
  induction ps with
  | nil => intro draws i; simp [updateAll]
  | cons p rest ih =>
    intro draws i
    cases i with
    | zero => simp [updateAll]
    | succ j => simpa [updateAll] using ih (fun k => draws (k + 1)) j

/-- Every branch of `updateParticle` writes only the `position` field. -/
lemma updateParticle_preserves (p : Particle) (ph : Physics) (cs r1 r2 : ℝ) (cur : Cursor) :
    (updateParticle p ph cs cur r1 r2).size = p.size ∧
    (updateParticle p ph cs cur r1 r2).destination = p.destination := by
  rcases cur with ⟨_ | cx, _ | cy⟩ <;>
    simp only [updateParticle, and_self] <;>
    (split <;> exact ⟨rfl, rfl⟩)

/-- Success shape of one `init` iteration in mode `sides`. -/
lemma placeOne_sides_eq (w h : ℝ) (inShape : ℝ → ℝ → Bool) (fuel : ℕ) (size : ℝ)
    (d : DrawSeq) (dest : ℝ × ℝ)
    (hpt : sampleLoop inShape w h d.sample fuel = some dest) :
    placeOne true true w h inShape fuel "sides" size d
      = .ok ⟨size, ⟨some (sidesPosition w h d.side d.coordX d.coordY).1,
                    some (sidesPosition w h d.side d.coordX d.coordY).2⟩,
              ⟨some dest.1, some dest.2⟩⟩ := by
  unfold placeOne
  rw [hpt]
  simp

/-- Success shape of one `init` iteration in mode `evenly`. -/
lemma placeOne_evenly_eq (w h : ℝ) (inShape : ℝ → ℝ → Bool) (fuel : ℕ) (size : ℝ)
    (d : DrawSeq) (dest : ℝ × ℝ)
    (hpt : sampleLoop inShape w h d.sample fuel = some dest) :
    placeOne true true w h inShape fuel "evenly" size d
      = .ok ⟨size, ⟨some (d.coordX * w), some (d.coordY * h)⟩,
              ⟨some dest.1, some dest.2⟩⟩ := by
  unfold placeOne
  rw [hpt]
  simp

/-- Success shape of one `init` iteration in mode `inside`: the position is
the freshly sampled destination itself. -/
lemma placeOne_inside_eq (w h : ℝ) (inShape : ℝ → ℝ → Bool) (fuel : ℕ) (size : ℝ)
    (d : DrawSeq) (dest : ℝ × ℝ)
    (hpt : sampleLoop inShape w h d.sample fuel = some dest) :
    placeOne true true w h inShape fuel "inside" size d
      = .ok ⟨size, ⟨some dest.1, some dest.2⟩, ⟨some dest.1, some dest.2⟩⟩ := by
  unfold placeOne
  rw [hpt]
  simp

/-- When the sampling loop runs out of fuel, the iteration diverges. -/
lemma placeOne_diverged (w h : ℝ) (inShape : ℝ → ℝ → Bool) (fuel : ℕ)
    (mode : String) (size : ℝ) (d : DrawSeq)
    (hpt : sampleLoop inShape w h d.sample fuel = none) :
    placeOne true true w h inShape fuel mode size d = .diverged := by
  unfold placeOne
  rw [hpt]
  simp

/-- With an unrecognized mode and an accepted sample, the iteration throws
`Invalid particle mode`. -/
lemma placeOne_invalid (w h : ℝ) (inShape : ℝ → ℝ → Bool) (fuel : ℕ)
    (mode : String) (size : ℝ) (d : DrawSeq) (dest : ℝ × ℝ)
    (hm1 : mode ≠ "sides") (hm2 : mode ≠ "evenly") (hm3 : mode ≠ "inside")
    (hpt : sampleLoop inShape w h d.sample fuel = some dest) :
    placeOne true true w h inShape fuel mode size d = .invalidMode := by
  unfold placeOne
  rw [hpt]
  simp [hm1, hm2, hm3]

/-- The `sides` placement always pins one coordinate to the boundary and
keeps the other inside `[0, bound)` (for in-range draws and positive
bounds). -/
lemma sidesPosition_pinned (w h r rx ry : ℝ) (hw : 0 < w) (hh : 0 < h)
    (hx : 0 ≤ rx) (hx1 : rx < 1) (hy : 0 ≤ ry) (hy1 : ry < 1) :
    (((sidesPosition w h r rx ry).1 = 0 ∨ (sidesPosition w h r rx ry).1 = w) ∧
      0 ≤ (sidesPosition w h r rx ry).2 ∧ (sidesPosition w h r rx ry).2 < h) ∨
    (((sidesPosition w h r rx ry).2 = 0 ∨ (sidesPosition w h r rx ry).2 = h) ∧
      0 ≤ (sidesPosition w h r rx ry).1 ∧ (sidesPosition w h r rx ry).1 < w) := by
  by_cases h1 : r < 0.25
  · have e : sidesPosition w h r rx ry = (rx * w, 0) := by simp [sidesPosition, h1]
    rw [e]
    exact Or.inr ⟨Or.inl rfl, mul_nonneg hx hw.le, mul_lt_of_lt_one_left hw hx1⟩
  · by_cases h2 : r < 0.5
    · have e : sidesPosition w h r rx ry = (w, ry * h) := by simp [sidesPosition, h1, h2]
      rw [e]
      exact Or.inl ⟨Or.inr rfl, mul_nonneg hy hh.le, mul_lt_of_lt_one_left hh hy1⟩
    · by_cases h3 : r < 0.75
      · have e : sidesPosition w h r rx ry = (rx * w, h) := by
          simp [sidesPosition, h1, h2, h3]
        rw [e]
        exact Or.inr ⟨Or.inr rfl, mul_nonneg hx hw.le, mul_lt_of_lt_one_left hw hx1⟩
      · have e : sidesPosition w h r rx ry = (0, ry * h) := by
          simp [sidesPosition, h1, h2, h3]
        rw [e]
        exact Or.inl ⟨Or.inl rfl, mul_nonneg hy hh.le, mul_lt_of_lt_one_left hh hy1⟩

/-- Unfolding equation: zero remaining iterations. -/
lemma initLoop_zero (canvasP ctxP : Bool) (w h : ℝ) (inShape : ℝ → ℝ → Bool)
    (fuel : ℕ) (mode : String) (size : ℝ) (ds : ℕ → DrawSeq) (acc : List Particle) :
    initLoop canvasP ctxP w h inShape fuel mode size ds 0 acc = .ok acc := rfl

/-- Unfolding equation: one more iteration. -/
lemma initLoop_succ (canvasP ctxP : Bool) (w h : ℝ) (inShape : ℝ → ℝ → Bool)
    (fuel : ℕ) (mode : String) (size : ℝ) (ds : ℕ → DrawSeq) (n : ℕ)
    (acc : List Particle) :
    initLoop canvasP ctxP w h inShape fuel mode size ds (n + 1) acc
      = match placeOne canvasP ctxP w h inShape fuel mode size (ds 0) with
        | .ok p => initLoop canvasP ctxP w h inShape fuel mode size
            (fun k => ds (k + 1)) n (acc ++ [p])
        | .canvasNotFound => .canvasNotFound acc
        | .invalidMode => .invalidMode acc
        | .diverged => .diverged acc := rfl

/-- A one-particle `init` run is determined by its single iteration. -/
lemma init_one_eq (w h : ℝ) (inShape : ℝ → ℝ → Bool) (fuel : ℕ) (ds : ℕ → DrawSeq)
    (mode : String) (size : ℝ) (p : Particle)
    (hp : placeOne true true w h inShape fuel mode size (ds 0) = .ok p) :
    init true true w h inShape fuel ds mode size 1 = .ok [p] := by
  unfold init
  rw [if_pos rfl]
  rw [show (1 : ℕ) = 0 + 1 from rfl, initLoop_succ, hp]
  rfl

/-- A fixed draw record for concrete runs: all draws `1/2`. -/
noncomputable def dsConst : DrawSeq := ⟨fun _ => (1 / 2, 1 / 2), 1 / 2, 1 / 2, 1 / 2⟩

/-- A draw record hitting the top-left corner: side draw `0` selects the top
edge and the coordinate draw `0` lands at its left end. -/
noncomputable def dsCorner : DrawSeq := ⟨fun _ => (1 / 2, 1 / 2), 0, 0, 0⟩

/-- The placement predicate claimed for mode `sides`: exactly one coordinate
pinned to `0` or its bound, the other inside `[0, bound)`. -/
def exactlyOnePinned (w h x y : ℝ) : Prop :=
  ((x = 0 ∨ x = w) ∧ ¬(y = 0 ∨ y = h) ∧ 0 ≤ y ∧ y < h) ∨
  ((y = 0 ∨ y = h) ∧ ¬(x = 0 ∨ x = w) ∧ 0 ≤ x ∧ x < w)

/-- Result-kind predicate: `init` threw `Invalid particle mode`. -/
def isInvalidModeResult : InitResult → Prop
  | .invalidMode _ => True
  | _ => False

/-- Result-kind predicate: `init` threw `Canvas not found`. -/
def isCanvasErrorResult : InitResult → Prop
  | .canvasNotFound _ => True
  | _ => False

/-! ## Claims -/

/-- C1 (amended): a physics step with `noise = 0`, `drift = 0`,
`repulsion = 0` and no pointer present leaves the particle unchanged,
provided its position differs from its destination. (As stated, with
position equal to destination, the claim fails: see the counterexample.) -/
theorem C1_zero_force_noop (sz cs px py dx dy r1 r2 : ℝ)
    (h : ¬(px = dx ∧ py = dy)) :
    updateParticle ⟨sz, ⟨some px, some py⟩, ⟨some dx, some dy⟩⟩ ⟨0, 0, 0⟩ cs
        ⟨none, none⟩ r1 r2
      = ⟨sz, ⟨some px, some py⟩, ⟨some dx, some dy⟩⟩ := by
  show noiseDriftStep ⟨sz, ⟨some px, some py⟩, ⟨some dx, some dy⟩⟩ 0 0 r1 r2 = _
  rw [noiseDriftStep_spec sz px py dx dy 0 0 r1 r2 px py
    (Real.sqrt ((px - dx) ^ 2 + (py - dy) ^ 2)) (by ring) (by ring) rfl h]
  norm_num

/-- Witness for C1 at a concrete particle away from its destination. -/
theorem C1_zero_force_noop_witness :
    updateParticle ⟨1, ⟨some 0, some 0⟩, ⟨some 3, some 4⟩⟩ ⟨0, 0, 0⟩ 100
        ⟨none, none⟩ (1 / 2) (1 / 2)
      = ⟨1, ⟨some 0, some 0⟩, ⟨some 3, some 4⟩⟩ :=
  C1_zero_force_noop 1 100 0 0 3 4 (1 / 2) (1 / 2) (by norm_num)

/-- C1 as stated is false at position = destination: the drift term divides
zero by zero, so the zero-force step turns a finite position into a
non-finite one instead of leaving it unchanged. -/
theorem C1_zero_force_counterexample :
    (updateParticle ⟨1, ⟨some 0, some 0⟩, ⟨some 0, some 0⟩⟩ ⟨0, 0, 0⟩ 100
        ⟨none, none⟩ (1 / 2) (1 / 2)).position = ⟨none, none⟩ ∧
    Position.mk none none ≠ Position.mk (some (0 : ℝ)) (some 0) := by
  constructor
  · show (noiseDriftStep ⟨1, ⟨some 0, some 0⟩, ⟨some 0, some 0⟩⟩ 0 0 (1 / 2) (1 / 2)).position = _
    rw [noiseDriftStep_degenerate 1 0 0 0 0 0 0 (1 / 2) (1 / 2) (by ring) (by ring)]
  · simp

/-- C2 (amended): with `noise = 0`, `drift = 1`, `repulsion = 0`, no pointer,
and distance `d ≥ 1` to the destination, one step moves the particle exactly
distance `d - 1` from the destination, strictly closer. (As stated, for every
`d > 0`, the claim fails below `d = 1`: see the counterexample.) -/
theorem C2_unit_drift (sz cs px py dx dy d r1 r2 : ℝ)
    (hd : d = Real.sqrt ((px - dx) ^ 2 + (py - dy) ^ 2)) (h1 : 1 ≤ d) :
    jdist (updateParticle ⟨sz, ⟨some px, some py⟩, ⟨some dx, some dy⟩⟩ ⟨0, 1, 0⟩ cs
        ⟨none, none⟩ r1 r2).position ⟨some dx, some dy⟩ = some (d - 1) ∧
    d - 1 < d := by
  have hdpos : 0 < d := lt_of_lt_of_le one_pos h1
  have hS : 0 < (px - dx) ^ 2 + (py - dy) ^ 2 := Real.sqrt_pos.mp (hd ▸ hdpos)
  have hne : ¬(px = dx ∧ py = dy) := by
    rintro ⟨e1, e2⟩
    rw [e1, e2] at hS
    norm_num at hS
  constructor
  · show jdist (noiseDriftStep ⟨sz, ⟨some px, some py⟩, ⟨some dx, some dy⟩⟩ 0 1
      r1 r2).position ⟨some dx, some dy⟩ = some (d - 1)
    rw [noiseDriftStep_spec sz px py dx dy 0 1 r1 r2 px py d (by ring) (by ring) hd hne]
    simp only [jdist, jsub_some, jsq_some, jadd_some, jsqrt_some]
    rw [if_neg (not_lt.mpr (by positivity))]
    congr 1
    have hd2 : d ^ 2 = (px - dx) ^ 2 + (py - dy) ^ 2 := by
      rw [hd]; exact Real.sq_sqrt hS.le
    have hE : (px + (dx - px) / d * 1 - dx) ^ 2 + (py + (dy - py) / d * 1 - dy) ^ 2
        = (d - 1) ^ 2 := by
      have expand : (px + (dx - px) / d * 1 - dx) ^ 2 + (py + (dy - py) / d * 1 - dy) ^ 2
          = ((px - dx) ^ 2 + (py - dy) ^ 2) * (1 - 1 / d) ^ 2 := by ring
      rw [expand, ← hd2]
      field_simp
    rw [hE, Real.sqrt_sq (by linarith)]
  · linarith

/-- Witness for C2 at distance 5 (a 3-4-5 triangle). -/
theorem C2_unit_drift_witness :
    jdist (updateParticle ⟨1, ⟨some 0, some 0⟩, ⟨some 3, some 4⟩⟩ ⟨0, 1, 0⟩ 100
        ⟨none, none⟩ 0 0).position ⟨some 3, some 4⟩ = some (5 - 1) ∧
    (5 : ℝ) - 1 < 5 := by
  have h5 : (5 : ℝ) = Real.sqrt (((0 : ℝ) - 3) ^ 2 + ((0 : ℝ) - 4) ^ 2) := by
    rw [show ((0 : ℝ) - 3) ^ 2 + ((0 : ℝ) - 4) ^ 2 = 5 ^ 2 by norm_num,
      Real.sqrt_sq (by norm_num)]
  exact C2_unit_drift 1 100 0 0 3 4 5 0 0 h5 (by norm_num)

/-- C2 as stated is false for starting distances below 1: at distance `1/2`
the unit drift overshoots the destination and lands at distance `1/2` again,
so the particle is neither strictly closer nor closer by exactly 1. -/
theorem C2_overshoot_counterexample :
    jdist (updateParticle ⟨1, ⟨some 0, some 0⟩, ⟨some (1 / 2), some 0⟩⟩ ⟨0, 1, 0⟩ 100
        ⟨none, none⟩ 0 0).position ⟨some (1 / 2), some 0⟩ = some (1 / 2) ∧
    jdist ⟨some 0, some 0⟩ ⟨some (1 / 2), some 0⟩ = some (1 / 2) ∧
    ¬((1 : ℝ) / 2 < 1 / 2) := by
  have hh : (1 : ℝ) / 2 = Real.sqrt (((0 : ℝ) - 1 / 2) ^ 2 + ((0 : ℝ) - 0) ^ 2) := by
    rw [show ((0 : ℝ) - 1 / 2) ^ 2 + ((0 : ℝ) - 0) ^ 2 = (1 / 2) ^ 2 by norm_num,
      Real.sqrt_sq (by norm_num)]
  refine ⟨?_, ?_, by norm_num⟩
  · show jdist (noiseDriftStep ⟨1, ⟨some 0, some 0⟩, ⟨some (1 / 2), some 0⟩⟩ 0 1
      0 0).position ⟨some (1 / 2), some 0⟩ = some (1 / 2)
    rw [noiseDriftStep_spec 1 0 0 (1 / 2) 0 0 1 0 0 0 0 (1 / 2) (by ring) (by ring) hh
      (by norm_num)]
    simp only [jdist, jsub_some, jsq_some, jadd_some, jsqrt_some]
    rw [if_neg (not_lt.mpr (by positivity))]
    congr 1
    rw [show (0 + (1 / 2 - 0) / (1 / 2) * 1 - 1 / 2 : ℝ) ^ 2 + (0 + (0 - 0) / (1 / 2) * 1 - 0 : ℝ) ^ 2
      = (1 / 2) ^ 2 by norm_num, Real.sqrt_sq (by norm_num)]
  · simp only [jdist, jsub_some, jsq_some, jadd_some, jsqrt_some]
    rw [if_neg (not_lt.mpr (by positivity))]
    congr 1
    rw [← hh]

/-- C3: when the pointer state is absent (both coordinates `undefined`), a
physics step yields exactly the position of the noise+drift-only step under
the same random draws: the repulsion term contributes nothing. -/
theorem C3_absent_pointer_no_repulsion (p : Particle) (ph : Physics) (cs r1 r2 : ℝ) :
    (updateParticle p ph cs ⟨none, none⟩ r1 r2).position
      = (noiseDriftStep p ph.noise ph.drift r1 r2).position := by
  rw [updateParticle_cursor_absent]

/-- C4: a present pointer with `x = 0` or `y = 0` fails the numeric
truthiness guard `cursor.x && cursor.y`, so the step skips the repulsion
term and behaves exactly as if the pointer were absent. -/
theorem C4_zero_coordinate_pointer_ignored (p : Particle) (ph : Physics)
    (cs r1 r2 : ℝ) (cx cy : Option ℝ) (h : cx = some 0 ∨ cy = some 0) :
    updateParticle p ph cs ⟨cx, cy⟩ r1 r2 = updateParticle p ph cs ⟨none, none⟩ r1 r2 :=
  updateParticle_zero_coord p ph cs r1 r2 cx cy h

/-- Witness for C4 at a concrete pointer `(0, 5)`. -/
theorem C4_zero_coordinate_pointer_ignored_witness :
    updateParticle ⟨1, ⟨some 0, some 0⟩, ⟨some 3, some 4⟩⟩ ⟨1, 1, 1⟩ 100
        ⟨some 0, some 5⟩ 0 0
      = updateParticle ⟨1, ⟨some 0, some 0⟩, ⟨some 3, some 4⟩⟩ ⟨1, 1, 1⟩ 100
        ⟨none, none⟩ 0 0 :=
  C4_zero_coordinate_pointer_ignored ⟨1, ⟨some 0, some 0⟩, ⟨some 3, some 4⟩⟩
    ⟨1, 1, 1⟩ 100 0 0 (some 0) (some 5) (Or.inl rfl)

/-- C10: a particle step writes only the `position` field (`size` and
`destination` are unchanged), and in the per-frame pass each output slot
depends only on the corresponding input particle and its own draws, so no
other particle or shared state is modified. -/
theorem C10_update_mutates_only_position :
    (∀ (p : Particle) (ph : Physics) (cs r1 r2 : ℝ) (cur : Cursor),
      (updateParticle p ph cs cur r1 r2).size = p.size ∧
      (updateParticle p ph cs cur r1 r2).destination = p.destination) ∧
    (∀ (ph : Physics) (cs : ℝ) (cur : Cursor) (ps : List Particle)
      (draws : ℕ → ℝ × ℝ) (i : ℕ),
      (updateAll ph cs cur draws ps)[i]? =
        (ps[i]?).map (fun q => updateParticle q ph cs cur (draws i).1 (draws i).2)) :=
  ⟨fun p ph cs r1 r2 cur => updateParticle_preserves p ph cs r1 r2 cur,
   fun ph cs cur ps draws i => updateAll_getElem? ph cs cur ps draws i⟩

/-- C5 (amended): every particle placed with mode `sides` has at least one
coordinate pinned to `0` or the corresponding bound, and the edge coordinate
lies in `[0, bound)`. (The claimed "exactly one" fails on corner draws: see
the counterexample.) -/
theorem C5_sides_placement (w h : ℝ) (inShape : ℝ → ℝ → Bool) (fuel : ℕ)
    (ds : ℕ → DrawSeq) (size : ℝ) (amount : ℕ) (ps : List Particle)
    (hw : 0 < w) (hh : 0 < h)
    (hdraw : ∀ i, 0 ≤ (ds i).coordX ∧ (ds i).coordX < 1 ∧
      0 ≤ (ds i).coordY ∧ (ds i).coordY < 1)
    (hok : init true true w h inShape fuel ds "sides" size amount = .ok ps) :
    ∀ p ∈ ps, ∃ x y : ℝ, p.position = ⟨some x, some y⟩ ∧
      (((x = 0 ∨ x = w) ∧ 0 ≤ y ∧ y < h) ∨ ((y = 0 ∨ y = h) ∧ 0 ≤ x ∧ x < w)) := by
  unfold init at hok
  rw [if_pos rfl] at hok
  refine initLoop_ok_forall true true w h inShape fuel "sides" size _ amount ds [] ps
    ?_ (by simp) hok
  intro k p hp
  rcases hs : sampleLoop inShape w h ((ds k).sample) fuel with _ | dest
  · rw [placeOne_diverged w h inShape fuel "sides" size (ds k) hs] at hp
    exact absurd hp (by simp)
  · rw [placeOne_sides_eq w h inShape fuel size (ds k) dest hs] at hp
    obtain ⟨hx, hx1, hy, hy1⟩ := hdraw k
    cases hp
    exact ⟨_, _, rfl,
      sidesPosition_pinned w h (ds k).side (ds k).coordX (ds k).coordY hw hh hx hx1 hy hy1⟩

/-- Witness for C5: one particle placed on the bottom edge of a unit surface
(side draw `1/2` picks the bottom side, coordinate draw `1/2` the midpoint). -/
theorem C5_sides_placement_witness :
    ∃ x y : ℝ,
      (Particle.mk 1 ⟨some (1 / 2), some 1⟩ ⟨some (1 / 2 * 1), some (1 / 2 * 1)⟩).position
        = ⟨some x, some y⟩ ∧
      (((x = 0 ∨ x = 1) ∧ 0 ≤ y ∧ y < 1) ∨ ((y = 0 ∨ y = 1) ∧ 0 ≤ x ∧ x < 1)) := by
  have e : sidesPosition 1 1 (1 / 2) (1 / 2) (1 / 2) = (1 / 2, 1) := by
    norm_num [sidesPosition]
    simp
  have hp : placeOne true true 1 1 (fun _ _ => true) 1 "sides" 1 dsConst
      = .ok ⟨1, ⟨some (1 / 2), some 1⟩, ⟨some (1 / 2 * 1), some (1 / 2 * 1)⟩⟩ := by
    rw [placeOne_sides_eq 1 1 (fun _ _ => true) 1 1 dsConst (1 / 2 * 1, 1 / 2 * 1) rfl]
    norm_num [dsConst, e]
  exact C5_sides_placement 1 1 (fun _ _ => true) 1 (fun _ => dsConst) 1 1 _
    (by norm_num) (by norm_num) (fun i => by norm_num [dsConst])
    (init_one_eq 1 1 (fun _ _ => true) 1 (fun _ => dsConst) "sides" 1 _ hp)
    _ (List.mem_singleton.mpr rfl)

/-- C5 as stated is false: with side draw `0` (top edge) and coordinate draw
`0`, the placed particle sits at the corner `(0, 0)`, where both coordinates
equal `0` or a bound, so "exactly one coordinate pinned" fails. -/
theorem C5_sides_counterexample :
    init true true 1 1 (fun _ _ => true) 1 (fun _ => dsCorner) "sides" 1 1
      = .ok [⟨1, ⟨some 0, some 0⟩, ⟨some (1 / 2 * 1), some (1 / 2 * 1)⟩⟩] ∧
    ¬ exactlyOnePinned 1 1 0 0 := by
  constructor
  · have e : sidesPosition 1 1 0 0 0 = (0, 0) := by norm_num [sidesPosition]
    have hp : placeOne true true 1 1 (fun _ _ => true) 1 "sides" 1 dsCorner
        = .ok ⟨1, ⟨some 0, some 0⟩, ⟨some (1 / 2 * 1), some (1 / 2 * 1)⟩⟩ := by
      rw [placeOne_sides_eq 1 1 (fun _ _ => true) 1 1 dsCorner (1 / 2 * 1, 1 / 2 * 1) rfl]
      norm_num [dsCorner, e]
    exact init_one_eq 1 1 (fun _ _ => true) 1 (fun _ => dsCorner) "sides" 1 _ hp
  · norm_num [exactlyOnePinned]

/-- C6: every particle placed with mode `inside` starts exactly at its
destination; the destination was accepted by the even-odd point-in-shape
oracle and lies in `[0, w) × [0, h)` (the rejection loop only ever returns
an accepted point). -/
theorem C6_inside_placement (w h : ℝ) (inShape : ℝ → ℝ → Bool) (fuel : ℕ)
    (ds : ℕ → DrawSeq) (size : ℝ) (amount : ℕ) (ps : List Particle)
    (hw : 0 < w) (hh : 0 < h)
    (hdraw : ∀ i k, 0 ≤ ((ds i).sample k).1 ∧ ((ds i).sample k).1 < 1 ∧
      0 ≤ ((ds i).sample k).2 ∧ ((ds i).sample k).2 < 1)
    (hok : init true true w h inShape fuel ds "inside" size amount = .ok ps) :
    ∀ p ∈ ps, p.position = p.destination ∧
      ∃ x y : ℝ, p.destination = ⟨some x, some y⟩ ∧ inShape x y = true ∧
        0 ≤ x ∧ x < w ∧ 0 ≤ y ∧ y < h := by
  unfold init at hok
  rw [if_pos rfl] at hok
  refine initLoop_ok_forall true true w h inShape fuel "inside" size _ amount ds [] ps
    ?_ (by simp) hok
  intro k p hp
  rcases hs : sampleLoop inShape w h ((ds k).sample) fuel with _ | dest
  · rw [placeOne_diverged w h inShape fuel "inside" size (ds k) hs] at hp
    exact absurd hp (by simp)
  · rw [placeOne_inside_eq w h inShape fuel size (ds k) dest hs] at hp
    cases hp
    obtain ⟨hacc, j, hj⟩ := sampleLoop_ok inShape w h fuel ((ds k).sample) dest hs
    obtain ⟨h1, h2, h3, h4⟩ := hdraw k j
    have e1 : dest.1 = ((ds k).sample j).1 * w := by rw [hj]
    have e2 : dest.2 = ((ds k).sample j).2 * h := by rw [hj]
    refine ⟨rfl, dest.1, dest.2, rfl, hacc, ?_, ?_, ?_, ?_⟩
    · rw [e1]; exact mul_nonneg h1 hw.le
    · rw [e1]; exact mul_lt_of_lt_one_left hw h2
    · rw [e2]; exact mul_nonneg h3 hh.le
    · rw [e2]; exact mul_lt_of_lt_one_left hh h4

/-- Witness for C6: one particle sampled inside an everywhere-accepting
shape on a unit surface. -/
theorem C6_inside_placement_witness :
    (Particle.mk 1 ⟨some (1 / 2 * 1), some (1 / 2 * 1)⟩
        ⟨some (1 / 2 * 1), some (1 / 2 * 1)⟩).position
      = (Particle.mk 1 ⟨some (1 / 2 * 1), some (1 / 2 * 1)⟩
        ⟨some (1 / 2 * 1), some (1 / 2 * 1)⟩).destination ∧
    ∃ x y : ℝ,
      (Particle.mk 1 ⟨some (1 / 2 * 1), some (1 / 2 * 1)⟩
        ⟨some (1 / 2 * 1), some (1 / 2 * 1)⟩).destination = ⟨some x, some y⟩ ∧
      (fun _ _ => true : ℝ → ℝ → Bool) x y = true ∧
      0 ≤ x ∧ x < 1 ∧ 0 ≤ y ∧ y < 1 :=
  C6_inside_placement 1 1 (fun _ _ => true) 1 (fun _ => dsConst) 1 1 _
    (by norm_num) (by norm_num) (fun i k => by norm_num [dsConst])
    (init_one_eq 1 1 (fun _ _ => true) 1 (fun _ => dsConst) "inside" 1 _
      (placeOne_inside_eq 1 1 (fun _ _ => true) 1 1 dsConst (1 / 2 * 1, 1 / 2 * 1) rfl))
    _ (List.mem_singleton.mpr rfl)

/-- C7: whenever `init` completes normally the particle array has exactly
`amount` entries, and with `amount = 0` it completes normally with an empty
array (no error), whatever the mode and whether or not a context exists. -/
theorem C7_length_eq_amount :
    (∀ (canvasP ctxP : Bool) (w h : ℝ) (inShape : ℝ → ℝ → Bool) (fuel : ℕ)
      (ds : ℕ → DrawSeq) (mode : String) (size : ℝ) (amount : ℕ) (ps : List Particle),
      init canvasP ctxP w h inShape fuel ds mode size amount = .ok ps →
      ps.length = amount) ∧
    (∀ (ctxP : Bool) (w h : ℝ) (inShape : ℝ → ℝ → Bool) (fuel : ℕ)
      (ds : ℕ → DrawSeq) (mode : String) (size : ℝ),
      init true ctxP w h inShape fuel ds mode size 0 = .ok []) := by
  constructor
  · intro canvasP ctxP w h inShape fuel ds mode size amount ps hok
    unfold init at hok
    split at hok
    · simpa using initLoop_ok_length canvasP ctxP w h inShape fuel mode size amount ds [] ps hok
    · exact absurd hok (by simp)
  · intro ctxP w h inShape fuel ds mode size
    rfl

/-- Witness for C7: a one-particle run in mode `inside`. -/
theorem C7_length_eq_amount_witness :
    ([⟨1, ⟨some (1 / 2 * 1 : ℝ), some (1 / 2 * 1 : ℝ)⟩,
        ⟨some (1 / 2 * 1 : ℝ), some (1 / 2 * 1 : ℝ)⟩⟩] : List Particle).length = 1 :=
  C7_length_eq_amount.1 true true 1 1 (fun _ _ => true) 1 (fun _ => dsConst) "inside" 1 1 _
    (init_one_eq 1 1 (fun _ _ => true) 1 (fun _ => dsConst) "inside" 1 _
      (placeOne_inside_eq 1 1 (fun _ _ => true) 1 1 dsConst (1 / 2 * 1, 1 / 2 * 1) rfl))

/-- C8 (amended): with at least one particle requested, surface and context
present, and a sampling run that accepts, an unrecognized placement mode
fails `init` with the `Invalid particle mode` error, and the particle array
is still empty at the throw (the mode is checked in the first iteration,
before the first push). (As stated, `amount = 0` refutes the claim: see the
counterexample.) -/
theorem C8_invalid_mode (w h : ℝ) (inShape : ℝ → ℝ → Bool) (fuel : ℕ)
    (ds : ℕ → DrawSeq) (mode : String) (size : ℝ) (amount : ℕ) (dest : ℝ × ℝ)
    (hm1 : mode ≠ "sides") (hm2 : mode ≠ "evenly") (hm3 : mode ≠ "inside")
    (ham : 1 ≤ amount)
    (hsample : sampleLoop inShape w h (ds 0).sample fuel = some dest) :
    init true true w h inShape fuel ds mode size amount = .invalidMode [] := by
  obtain ⟨n, rfl⟩ : ∃ n, amount = n + 1 := ⟨amount - 1, by omega⟩
  unfold init
  rw [if_pos rfl, initLoop_succ,
    placeOne_invalid w h inShape fuel mode size (ds 0) dest hm1 hm2 hm3 hsample]

/-- Witness for C8 with the unrecognized mode string `diagonal`. -/
theorem C8_invalid_mode_witness :
    init true true 1 1 (fun _ _ => true) 1 (fun _ => dsConst) "diagonal" 1 1
      = .invalidMode [] :=
  C8_invalid_mode 1 1 (fun _ _ => true) 1 (fun _ => dsConst) "diagonal" 1 1
    (1 / 2 * 1, 1 / 2 * 1) (by decide) (by decide) (by decide) (by norm_num) rfl

/-- C8 as stated is false at `amount = 0`: with an unrecognized mode and no
particle requested, `init` completes normally (the mode is never inspected)
instead of failing with `InvalidConfiguration`. -/
theorem C8_invalid_mode_counterexample :
    init true true 1 1 (fun _ _ => true) 1 (fun _ => dsConst) "diagonal" 1 0 = .ok [] ∧
    ¬ isInvalidModeResult
      (init true true 1 1 (fun _ _ => true) 1 (fun _ => dsConst) "diagonal" 1 0) := by
  have e : init true true 1 1 (fun _ _ => true) 1 (fun _ => dsConst) "diagonal" 1 0
      = .ok [] := rfl
  exact ⟨e, by rw [e]; simp [isInvalidModeResult]⟩

/-- C9 (amended): a missing surface or drawing context makes `animate` fail
with the `Canvas not found` error before touching any particle; `init` fails
the same way, with no particle appended, whenever the surface is missing or
the context is missing and at least one particle is requested. (As stated,
the claim fails for `init` with a missing context and `amount = 0`: see the
counterexample.) -/
theorem C9_unavailable (w h : ℝ) (ph : Physics) (cur : Cursor) (draws : ℕ → ℝ × ℝ)
    (inShape : ℝ → ℝ → Bool) (fuel : ℕ) (ds : ℕ → DrawSeq) (mode : String) (size : ℝ) :
    (∀ (canvasP ctxP : Bool) (ps : List Particle), ¬(canvasP = true ∧ ctxP = true) →
      animateFrame canvasP ctxP w h ph cur draws ps = .error "Canvas not found") ∧
    (∀ (ctxP : Bool) (amount : ℕ),
      init false ctxP w h inShape fuel ds mode size amount = .canvasNotFound []) ∧
    (∀ amount : ℕ, 1 ≤ amount →
      init true false w h inShape fuel ds mode size amount = .canvasNotFound []) := by
  refine ⟨?_, fun ctxP amount => rfl, ?_⟩
  · intro canvasP ctxP ps hcc
    have e : (canvasP && ctxP) = false := by
      cases canvasP <;> cases ctxP <;> simp_all
    simp [animateFrame, e]
  · intro amount ham
    obtain ⟨n, rfl⟩ : ∃ n, amount = n + 1 := ⟨amount - 1, by omega⟩
    unfold init
    rw [if_pos rfl, initLoop_succ,
      show placeOne true false w h inShape fuel mode size (ds 0) = .canvasNotFound from rfl]

/-- Witness for C9: a missing context fails a frame outright and fails a
one-particle `init`; a missing surface fails `init` at any amount. -/
theorem C9_unavailable_witness :
    animateFrame true false 1 1 ⟨1, 1, 1⟩ ⟨none, none⟩ (fun _ => (0, 0)) []
      = .error "Canvas not found" ∧
    init false true 1 1 (fun _ _ => true) 1 (fun _ => dsConst) "inside" 1 3
      = .canvasNotFound [] ∧
    init true false 1 1 (fun _ _ => true) 1 (fun _ => dsConst) "inside" 1 1
      = .canvasNotFound [] :=
  ⟨(C9_unavailable 1 1 ⟨1, 1, 1⟩ ⟨none, none⟩ (fun _ => (0, 0)) (fun _ _ => true) 1
      (fun _ => dsConst) "inside" 1).1 true false [] (by simp),
   (C9_unavailable 1 1 ⟨1, 1, 1⟩ ⟨none, none⟩ (fun _ => (0, 0)) (fun _ _ => true) 1
      (fun _ => dsConst) "inside" 1).2.1 true 3,
   (C9_unavailable 1 1 ⟨1, 1, 1⟩ ⟨none, none⟩ (fun _ => (0, 0)) (fun _ _ => true) 1
      (fun _ => dsConst) "inside" 1).2.2 1 (by norm_num)⟩

/-- C9 as stated is false for `init` with a missing context and no particle
requested: `init` completes normally instead of failing with `Unavailable`
(the context is only touched inside the loop body). -/
theorem C9_unavailable_counterexample :
    init true false 1 1 (fun _ _ => true) 1 (fun _ => dsConst) "inside" 1 0 = .ok [] ∧
    ¬ isCanvasErrorResult
      (init true false 1 1 (fun _ _ => true) 1 (fun _ => dsConst) "inside" 1 0) := by
  have e : init true false 1 1 (fun _ _ => true) 1 (fun _ => dsConst) "inside" 1 0
      = .ok [] := rfl
  exact ⟨e, by rw [e]; simp [isCanvasErrorResult]⟩

end Swarm
